import Mathlib

/-!
# Verification of the TV_Grab recommendation core

Shallow embedding of the slot-filling / scoring / selection core of the
TV_Grab repository (`tv_buy_1_0`), together with theorems that settle the
claims about its specification.

Embedded source files:
* `tv_buy_1_0/run_reco.py`       — scoring engine (`norm_pos`, `norm_neg`,
  `minmax`, `apply_filters`, `get_top3`, …)
* `tv_buy_1_0/agent/dialogue_3p2.py` — slot parsers, dialogue state machine
  (`Dialogue3p2.chat`) and the 3+2 selection (`_pick_low_and_mid`, `_run_3p2`)
* `tv_buy_1_0/tools_cli/tv_rank.py`  — newest-first ranking tool (`tool_call`)
* `tv_buy_1_0/web/app.py`        — session store and `/api/dialog/3p2` handler

Modelling conventions:
* Python floats are idealized as exact rationals (`ℚ`); Python ints are `ℤ`
  (or `ℕ` where the source value is a count/year).  `int(x)` of a nonnegative
  float is truncation, modelled by `pyTrunc`.
* A Python dict row is modelled as a record plus an association list for the
  open metric bag; a key that is missing and a key whose value is `None` are
  both modelled as a failing lookup (the source treats them identically at
  every read site embedded here).
* Python's stable `list.sort` / `sorted(key=...)` is modelled by Mathlib's
  stable `List.insertionSort` ordered by the same key tuple (`keySort`);
  `reverse=True` is modelled by sorting on the dual order of the key.
* Database access (`all_by_size`, `list_candidates`) is replaced by an
  explicit candidate-list parameter; everything downstream of the fetch is
  embedded from the source.
* String handling is done on `List Char` with Python-like helpers
  (strip / lower / digit extraction); Unicode-only corner cases (non-ASCII
  digits, non-ASCII upper-case letters, exotic whitespace) are outside the
  model.
-/

namespace TVGrab

/-! ## Python-style string helpers -/

/-- Characters of a string. -/
def chars (s : String) : List Char := s.data

/-- Python `str.lower` (ASCII case mapping). -/
def lowerChars (l : List Char) : List Char := l.map Char.toLower

/-- Drop leading whitespace. -/
def dropWs (l : List Char) : List Char := l.dropWhile Char.isWhitespace

/-- Python `str.strip`. -/
def trimChars (l : List Char) : List Char := ((dropWs l).reverse.dropWhile Char.isWhitespace).reverse

/-- Python `s.strip().lower()`. -/
def lowerTrim (s : String) : List Char := lowerChars (trimChars (chars s))

/-- Decimal value of a digit character. -/
def digitVal (c : Char) : ℕ := c.toNat - 48

/-- Value of a digit string (Python `int` on an all-digit string). -/
def natOfDigits (l : List Char) : ℕ := l.foldl (fun a c => a * 10 + digitVal c) 0

/-- Python `int(s)` restricted to nonnegative decimal literals: `none` models
the `ValueError` branch (always wrapped in `try/except` in the source). -/
def natOfChars? (l : List Char) : Option ℕ :=
  if l ≠ [] ∧ l.all Char.isDigit then some (natOfDigits l) else none

/-- Python `s.split(sep)` for a one-character separator. -/
def splitOnCharAux (sep : Char) : List Char → List Char → List (List Char)
  | [], acc => [acc.reverse]
  | c :: rest, acc =>
    if c = sep then acc.reverse :: splitOnCharAux sep rest []
    else splitOnCharAux sep rest (c :: acc)

/-- Python `s.split(sep)` for a one-character separator. -/
def splitOnChar (sep : Char) (l : List Char) : List (List Char) := splitOnCharAux sep l []

/-- Python `int()` truncation (toward zero) of a rational. -/
def pyTrunc (q : ℚ) : ℤ := q.num.tdiv q.den

/-! ## Stable sorting by a key (Python `sorted(key=...)`) -/

/-- The ordering relation induced by a key function into a linear order;
`keySort` with this relation is Python's stable ascending sort by key. -/
def keyRel {α β : Type} [LinearOrder β] (f : α → β) : α → α → Prop :=
  fun a b => f a ≤ f b

instance keyRelDecidable {α β : Type} [LinearOrder β] (f : α → β) :
    DecidableRel (keyRel f) :=
  fun a b => inferInstanceAs (Decidable (f a ≤ f b))

instance keyRelTotal {α β : Type} [LinearOrder β] (f : α → β) :
    IsTotal α (keyRel f) :=
  ⟨fun a b => le_total (f a) (f b)⟩

instance keyRelTrans {α β : Type} [LinearOrder β] (f : α → β) :
    IsTrans α (keyRel f) :=
  ⟨fun _ _ _ hab hbc => le_trans hab hbc⟩

/-- Python `sorted(l, key=f)`: a stable sort, ascending in `f`.
`sorted(l, key=f, reverse=True)` is `keySort (toDual ∘ f) l`. -/
def keySort {α β : Type} [LinearOrder β] (f : α → β) (l : List α) : List α :=
  l.insertionSort (keyRel f)

/-! ## `run_reco.py` — data model -/

/-- A candidate row as read from the `tv` table (`run_reco.all_by_size`).
`metrics` is the open metric bag (numeric values; a boolean column is stored
as 0/1); an absent key models both a missing column and a `NULL` value. -/
structure RTV where
  brand : Option String
  model : String
  launch_date : Option String
  metrics : List (String × ℚ)
deriving DecidableEq, Repr

/-- Python `tv.get(k)` on the metric bag. -/
def rtvGet (tv : RTV) (k : String) : Option ℚ := tv.metrics.lookup k

/-- One penalty rule from `profiles.yaml` (`metric`, `op`, `value`,
`multiplier`). -/
structure Penalty where
  metric : String
  op : String
  value : ℚ
  multiplier : ℚ
deriving DecidableEq, Repr

/-- A score profile (`load_profile`): weights, inverted metrics, boolean
metrics and penalty rules. -/
structure Profile where
  weights : List (String × ℚ)
  negative_metrics : List String
  boolean_metrics : List String
  penalties : List Penalty
deriving DecidableEq, Repr

/-! ## `run_reco.py` — utilities -/

/-- `run_reco.months_ago`, with `datetime.now()` passed in as `(nowY, nowM)`. -/
def months_ago (nowY nowM : ℤ) (yyyymm : Option String) : Option ℤ :=
  match yyyymm with
  | none => none
  | some s =>
    if chars s = [] then none
    else
      match splitOnChar '-' (trimChars (chars s)) with
      | p0 :: p1 :: _ =>
        match natOfChars? p0, natOfChars? p1 with
        | some y, some m => some ((nowY - (y : ℤ)) * 12 + (nowM - (m : ℤ)))
        | _, _ => none
      | _ => none

/-- `run_reco.to_bool01` on a numeric value (the only value shape stored in
the embedded metric bag). -/
def to_bool01 (x : ℚ) : ℚ := if x ≠ 0 then 1 else 0

/-- `run_reco.norm_pos`: clamp into `[lo, hi]` and scale into `[0,1]`;
an absent value or an empty range yields `0.0`. -/
def norm_pos (x : Option ℚ) (lo hi : ℚ) : ℚ :=
  match x with
  | none => 0
  | some v => if hi ≤ lo then 0 else (max lo (min hi v) - lo) / (hi - lo)

/-- `run_reco.norm_neg`: `1.0 - norm_pos(...)`. -/
def norm_neg (x : Option ℚ) (lo hi : ℚ) : ℚ := 1 - norm_pos x lo hi

/-- `run_reco.norm_brand` (brand alias normalization). -/
def norm_brand (brand : Option String) : Option String :=
  match brand with
  | none => none
  | some s =>
    if chars s = [] then none
    else
      let b := String.mk (lowerTrim s)
      if b = "tcl" ∨ b = "t.c.l" then some "tcl"
      else if b = "mi" ∨ b = "小米" ∨ b = "xiaomi" then some "mi"
      else if b = "hisense" ∨ b = "海信" then some "hisense"
      else if b = "sony" ∨ b = "索尼" then some "sony"
      else some b

/-- `run_reco.launch_year_from_date`: `int(str(d)[:4])`, `0` on failure. -/
def launch_year_from_date (d : Option String) : ℕ :=
  match d with
  | none => 0
  | some s =>
    if chars s = [] then 0 else (natOfChars? ((chars s).take 4)).getD 0

/-- `run_reco.date_rank` (also `tv_rank._launch_key`): `YYYY-MM[-DD]` to
`yyyymmdd`, missing month/day default to 1, any parse failure yields 0. -/
def date_rank (d : Option String) : ℕ :=
  match d with
  | none => 0
  | some s =>
    match splitOnChar '-' (trimChars (chars s)) with
    | [] => 0
    | p0 :: rest =>
      match natOfChars? p0 with
      | none => 0
      | some y =>
        match rest with
        | [] => y * 10000 + 100 + 1
        | p1 :: rest2 =>
          match natOfChars? p1 with
          | none => 0
          | some m =>
            match rest2 with
            | [] => y * 10000 + m * 100 + 1
            | p2 :: _ =>
              match natOfChars? p2 with
              | none => 0
              | some dd => y * 10000 + m * 100 + dd

/-- `run_reco.parse_price` on a stored numeric-or-absent price (the string
branch of the source parses decimal text and is outside the numeric model). -/
def parse_price (p : Option ℚ) : Option ℚ := p

/-- `run_reco.minmax`: min and max of the present values of a metric,
defaulting to `(0, 1)` when no candidate has the metric. -/
def minmax (cands : List RTV) (key : String) : ℚ × ℚ :=
  match cands.filterMap (fun c => rtvGet c key) with
  | [] => (0, 1)
  | v :: vs => (vs.foldl min v, vs.foldl max v)

/-- `run_reco.apply_filters`: hard brand filter and budget filter; with a
budget, an absent price is excluded and a present price must be `≤ budget`. -/
def apply_filters (cands : List RTV) (brand : Option String) (budget : Option ℚ) :
    List RTV :=
  let bkey := norm_brand brand
  cands.filter fun tv =>
    (match bkey with
     | none => true
     | some bk =>
       if bk = "" then true
       else norm_brand tv.brand == some bk) &&
    (match budget with
     | none => true
     | some b =>
       match parse_price (rtvGet tv "street_rmb") with
       | none => false
       | some p => decide (p ≤ b))

/-! ## `run_reco.py` — scoring (`get_top3`) -/

/-- The in-place boolean normalization loop at the top of `get_top3`:
every present value of a metric listed in `boolean_metrics` is replaced by
`to_bool01` of it. -/
def bool_normalize (bm : List String) (tv : RTV) : RTV :=
  { tv with metrics := tv.metrics.map fun kv =>
      if kv.1 ∈ bm then (kv.1, to_bool01 kv.2) else kv }

/-- `stat.get(k, (0.0, 1.0))`. -/
def stat_get (stat : List (String × (ℚ × ℚ))) (k : String) : ℚ × ℚ :=
  (stat.lookup k).getD (0, 1)

/-- The per-metric contribution inside `get_top3`'s weight loop:
`norm_neg` for an inverted metric, `norm_pos` otherwise, times the weight. -/
def metric_contribution (negm : List String) (k : String) (w lo hi : ℚ)
    (raw : Option ℚ) : ℚ :=
  (if k ∈ negm then norm_neg raw lo hi else norm_pos raw lo hi) * w

/-- The `parts` dict built by `get_top3` for one candidate. -/
def score_parts (prof : Profile) (stat : List (String × (ℚ × ℚ))) (tv : RTV) :
    List (String × ℚ) :=
  prof.weights.map fun kw =>
    let lohi := stat_get stat kw.1
    (kw.1, metric_contribution prof.negative_metrics kw.1 kw.2 lohi.1 lohi.2
      (rtvGet tv kw.1))

/-- The running `score` accumulated over the weight loop of `get_top3`. -/
def base_score (prof : Profile) (stat : List (String × (ℚ × ℚ))) (tv : RTV) : ℚ :=
  (score_parts prof stat tv).foldl (fun acc kv => acc + kv.2) 0

/-- One penalty-rule application from `get_top3` (the `try/except` around the
comparison can never fire on numeric values, and an unknown `op` leaves the
score unchanged, as in the source). -/
def apply_penalty (tv : RTV) (pen : Penalty) (score : ℚ) : ℚ :=
  let x := rtvGet tv pen.metric
  if pen.op = "is_null" ∧ x = none then score * pen.multiplier
  else if pen.op = "not_null" ∧ x ≠ none then score * pen.multiplier
  else
    match x with
    | none => score
    | some v =>
      if (pen.op = ">" ∧ pen.value < v) ∨ (pen.op = ">=" ∧ pen.value ≤ v) ∨
         (pen.op = "<" ∧ v < pen.value) ∨ (pen.op = "<=" ∧ v ≤ pen.value) ∨
         (pen.op = "==" ∧ v = pen.value)
      then score * pen.multiplier
      else score

/-- The penalty loop of `get_top3`, applied in rule order. -/
def apply_penalties (tv : RTV) (pens : List Penalty) (score : ℚ) : ℚ :=
  pens.foldl (fun s p => apply_penalty tv p s) score

/-- The recency decay of `get_top3`: models older than 12 months lose 8%. -/
def recency_decay (nowY nowM : ℤ) (tv : RTV) (score : ℚ) : ℚ :=
  match months_ago nowY nowM tv.launch_date with
  | none => score
  | some age => if 12 < age then score * (92 / 100) else score

/-- A candidate annotated by `get_top3` (`_score`, `_year`, `_parts`). -/
structure ScoredTV where
  tv : RTV
  score : ℚ
  year : ℕ
  parts : List (String × ℚ)
deriving DecidableEq, Repr

/-- Scoring of one candidate inside `get_top3`. -/
def score_tv (prof : Profile) (stat : List (String × (ℚ × ℚ))) (nowY nowM : ℤ)
    (tv : RTV) : ScoredTV :=
  let s := recency_decay nowY nowM tv (apply_penalties tv prof.penalties
    (base_score prof stat tv))
  ⟨tv, s, launch_year_from_date tv.launch_date, score_parts prof stat tv⟩

/-- The two-way recency flag of `get_top3`'s final sort:
`0 if x.get("_year") == year_prefer else 1`.  A candidate without a launch
date has `_year = 0` and therefore also lands in flag 1. -/
def top3_bucket (year_prefer : ℕ) (a : ScoredTV) : ℕ :=
  if a.year = year_prefer then 0 else 1

/-- The sort key of `get_top3`'s final `ranked.sort`: prefer-year flag
ascending, then score descending, then launch date descending. -/
def top3_key (year_prefer : ℕ) (a : ScoredTV) : ℕ ×ₗ ℚ ×ₗ ℤ :=
  toLex (top3_bucket year_prefer a,
    toLex (-a.score, -(date_rank a.tv.launch_date : ℤ)))

/-- Ordering relation of `get_top3`'s final sort. -/
def top3_r (year_prefer : ℕ) : ScoredTV → ScoredTV → Prop :=
  keyRel (top3_key year_prefer)

instance (yp : ℕ) : DecidableRel (top3_r yp) :=
  fun a b => inferInstanceAs (Decidable (top3_key yp a ≤ top3_key yp b))

/-- `run_reco.get_top3` with the DB fetch (`all_by_size`) replaced by the
explicit candidate pool `pool` and `datetime.now()` by `(nowY, nowM)`:
filter, boolean-normalize, score, sort, take 3. -/
def get_top3 (prof : Profile) (pool : List RTV) (brand : Option String)
    (budget : Option ℚ) (year_prefer : ℕ) (nowY nowM : ℤ) : List ScoredTV :=
  let cands := apply_filters pool brand budget
  if cands.isEmpty then []
  else
    let cands2 := cands.map (bool_normalize prof.boolean_metrics)
    let stat := prof.weights.map fun kw => (kw.1, minmax cands2 kw.1)
    let ranked := cands2.map (score_tv prof stat nowY nowM)
    (keySort (top3_key year_prefer) ranked).take 3

/-! ## `agent/dialogue_3p2.py` — slot parsers

Each parser works on the raw user text.  The regex searches of the source are
implemented as explicit scanners with the same match semantics. -/

/-- Maximal digit prefix of a character list (the greedy `\d+` of a match). -/
def takeDigits : List Char → List Char × List Char
  | [] => ([], [])
  | c :: rest =>
    if c.isDigit then
      let dr := takeDigits rest
      (c :: dr.1, dr.2)
    else ([], c :: rest)

/-- Drop leading whitespace (the `\s*` of a match). -/
def skipWs : List Char → List Char
  | [] => []
  | c :: rest => if c.isWhitespace then skipWs rest else c :: rest

/-- Numeric value of a matched `\d+(\.\d+)?` group (integer digits `ds`,
fraction digits `fs`), idealizing `float(...)` as an exact rational. -/
def ratOfNum (ds fs : List Char) : ℚ :=
  (natOfDigits ds : ℚ) + (natOfDigits fs : ℚ) / (10 : ℚ) ^ fs.length

/-- `re.search(r"(\d+(?:\.\d+)?)\s*X", s)` for a one-character suffix `X`:
scan left to right for a number followed by optional whitespace and the
suffix, returning the numeric group of the first match. -/
def numBeforeSuffix (suffix : Char) : List Char → Option ℚ
  | [] => none
  | c :: rest =>
    if c.isDigit then
      let dr := takeDigits (c :: rest)
      match dr.2 with
      | '.' :: r2 =>
        if (match r2 with | d :: _ => d.isDigit | [] => false) then
          let fr := takeDigits r2
          if (match skipWs fr.2 with | k :: _ => k == suffix | [] => false) then
            some (ratOfNum dr.1 fr.1)
          else numBeforeSuffix suffix rest
        else numBeforeSuffix suffix rest
      | _ =>
        if (match skipWs dr.2 with | k :: _ => k == suffix | [] => false) then
          some (ratOfNum dr.1 [])
        else numBeforeSuffix suffix rest
    else numBeforeSuffix suffix rest

/-- `dialogue_3p2._safe_int_from_text`: `6000` / `1.2万` / `8k` / `2w` /
digit extraction; `None` when nothing numeric is found. -/
def safe_int_from_text (x : String) : Option ℤ :=
  let s := lowerTrim x
  if s = [] then none
  else
    match numBeforeSuffix '万' s with
    | some q => some (pyTrunc (q * 10000))
    | none =>
      match numBeforeSuffix 'k' s with
      | some q => some (pyTrunc (q * 1000))
      | none =>
        match numBeforeSuffix 'w' s with
        | some q => some (pyTrunc (q * 10000))
        | none =>
          let digits := s.filter Char.isDigit
          if digits = [] then none else some (natOfDigits digits : ℤ)

/-- `dialogue_3p2._safe_size`: digit extraction, accepted only in
`[20, 120]`. -/
def safe_size (x : String) : Option ℤ :=
  let s := lowerTrim x
  let digits := s.filter Char.isDigit
  if digits = [] then none
  else
    let v : ℤ := (natOfDigits digits : ℤ)
    if 20 ≤ v ∧ v ≤ 120 then some v else none

/-- `dialogue_3p2._norm_scene`: closed scene enumeration. -/
def norm_scene (x : String) : Option String :=
  let s := String.mk (lowerTrim x)
  if s = "movie" ∨ s = "ps5" ∨ s = "bright" ∨ s = "sport" then some s else none

/-- `re.sub(r"\s+", " ", s)`: collapse every whitespace run to one space. -/
def collapseWs : List Char → List Char
  | [] => []
  | c :: rest =>
    if c.isWhitespace then
      match rest with
      | [] => [' ']
      | d :: _ =>
        if d.isWhitespace then collapseWs rest else ' ' :: collapseWs rest
    else c :: collapseWs rest

/-- Separator class `[,/，\s]` of the brand-list split. -/
def brandSep (c : Char) : Bool := c = ',' ∨ c = '/' ∨ c = '，' ∨ c.isWhitespace

/-- `dialogue_3p2._norm_brand_token`: strip and lower. -/
def norm_brand_token (l : List Char) : String := String.mk (lowerChars (trimChars l))

/-- The brand-list extraction `[_norm_brand_token(b) for b in
re.split(r"[,/，\s]+", rest) if b.strip()]` (with the final `if b` filter):
split on separator runs and keep the nonempty normalized tokens. -/
def brandTokens (rest : List Char) : List String :=
  ((rest.splitOnP brandSep).map norm_brand_token).filter (fun b => b ≠ "")

/-- Try the verbs of one alternation `^(v1|v2|...)\s*(.+)$` in order: if some
verb is a prefix of `s`, drop it, skip whitespace, and require a nonempty
rest (no verb is a prefix of another, so first-prefix = regex order). -/
def matchVerbRest (verbs : List (List Char)) (s : List Char) : Option (List Char) :=
  match verbs with
  | [] => none
  | v :: vs =>
    if v.isPrefixOf s then
      let rest := skipWs (s.drop v.length)
      if rest = [] then none else some rest
    else matchVerbRest vs s

/-- Character class `[a-z0-9一-鿿\-_]` of the bare-brand fullmatch. -/
def brandChar (c : Char) : Bool :=
  ('a' ≤ c ∧ c ≤ 'z') ∨ c.isDigit ∨ ('一' ≤ c ∧ c ≤ '鿿') ∨
    c = '-' ∨ c = '_'

/-- `dialogue_3p2._parse_brand_attitude`: `(mode, brands)` with mode one of
`any` / `only` / `exclude`, or `none` when the text cannot be interpreted. -/
def parse_brand_attitude (x : String) : Option String × List String :=
  let s := collapseWs (lowerTrim x)
  if s = [] then (none, [])
  else if s = chars "无所谓" ∨ s = chars "随便" ∨ s = chars "都行" ∨
      s = chars "不限" ∨ s = chars "any" then (some "any", [])
  else
    match matchVerbRest [chars "只要", chars "只选", chars "必须", chars "就要"] s with
    | some rest => (some "only", brandTokens rest)
    | none =>
      match matchVerbRest [chars "排除", chars "不要", chars "不考虑", chars "别给"] s with
      | some rest => (some "exclude", brandTokens rest)
      | none =>
        if s.all brandChar then (some "only", [String.mk s]) else (none, [])

/-! ## `agent/dialogue_3p2.py` — candidates and 3+2 selection -/

/-- A candidate item as consumed by `Dialogue3p2` (a `tv_rank` output row or
a raw DB row; `_get_price` probes all three price keys).  A brand of `""`
models a missing brand (`str(t.get("brand") or "")`). -/
structure DTV where
  brand : String
  model : String
  size_inch : ℤ
  price_cny : Option ℤ
  street_rmb : Option ℤ
  meta_price_cny : Option ℤ
  launch_date : Option String
deriving DecidableEq, Repr

/-- `dialogue_3p2._model_of`: `str(tv.get("model") or "").strip()`. -/
def model_of (tv : DTV) : String := String.mk (trimChars (chars tv.model))

/-- `dialogue_3p2._get_price`: first strictly positive price among
`price_cny`, `street_rmb`, `meta_price_cny` (a nonpositive or absent value
falls through to the next key). -/
def dget_price (tv : DTV) : Option ℤ :=
  let pick : Option ℤ → Option ℤ → Option ℤ := fun v rest =>
    match v with
    | some iv => if 0 < iv then some iv else rest
    | none => rest
  pick tv.price_cny (pick tv.street_rmb (pick tv.meta_price_cny none))

/-- `dialogue_3p2._launch_key`: four year digits, a dash or slash, then one
or two month digits, mapped to `y*100+month`; `0` when the anchored pattern
does not match. -/
def dlg_launch_key (launch_date : Option String) : ℕ :=
  match launch_date with
  | none => 0
  | some s0 =>
    if chars s0 = [] then 0
    else
      match trimChars (chars s0) with
      | a :: b :: c :: d :: sep :: rest =>
        if a.isDigit ∧ b.isDigit ∧ c.isDigit ∧ d.isDigit ∧ (sep = '-' ∨ sep = '/') then
          let y := natOfDigits [a, b, c, d]
          match rest with
          | [] => 0
          | m1 :: rest2 =>
            if m1.isDigit then
              match rest2 with
              | [] => y * 100 + digitVal m1
              | m2 :: _ =>
                if m2.isDigit then y * 100 + (digitVal m1 * 10 + digitVal m2)
                else y * 100 + digitVal m1
            else 0
        else 0
      | _ => 0

/-- `dialogue_3p2._brand_to_db`. -/
def brand_to_db (brand : String) : String :=
  let b := String.mk (trimChars (chars brand))
  if b = "" then b
  else
    let low := String.mk (lowerChars (chars b))
    if low = "tcl" then "TCL"
    else if low = "sony" then "SONY"
    else if low = "samsung" then "SAMSUNG"
    else if low = "hisense" then "hisense"
    else b

/-- `Dialogue3p2._apply_brand_exclude` for a state with the given mode and
brand list. -/
def apply_brand_exclude (items : List DTV) (brand_mode : String)
    (brand_list : List String) : List DTV :=
  if brand_mode ≠ "exclude" then items
  else
    let ex := (brand_list.filter (fun x => x ≠ "")).map brand_to_db
    if ex = [] then items
    else items.filter fun t =>
      let b := brand_to_db t.brand
      !(decide (b ≠ "") && ex.contains b)

/-- `Dialogue3p2._apply_budget_and_price_filter`: drop absent/nonpositive
prices and prices above the budget. -/
def apply_budget_and_price_filter (items : List DTV) (budget_max : ℤ) : List DTV :=
  items.filter fun t =>
    match dget_price t with
    | none => false
    | some p => decide (0 < p) && decide (p ≤ budget_max)

/-- The key of `Dialogue3p2._sort_recent_then_price` (ascending tuple key,
`reverse=True` modelled by the dual order): launch month desc, price desc. -/
def recent_price_key (t : DTV) : (ℕ ×ₗ ℤ)ᵒᵈ :=
  OrderDual.toDual (toLex (dlg_launch_key t.launch_date, (dget_price t).getD 0))

/-- `Dialogue3p2._sort_recent_then_price`. -/
def sort_recent_then_price (items : List DTV) : List DTV :=
  keySort recent_price_key items

/-- The eligible pool built at the top of `Dialogue3p2._pick_low_and_mid`:
nonempty model not already used, present positive price within budget. -/
def plm_cand (pool : List DTV) (used_models : List String) (budget_max : ℤ) :
    List DTV :=
  pool.filter fun t =>
    !(decide (model_of t = "") || used_models.contains (model_of t)) &&
    (match dget_price t with
     | none => false
     | some p => decide (0 < p) && decide (p ≤ budget_max))

/-- The low-price sort key of `_pick_low_and_mid`: price ascending, launch
month descending. -/
def low_key (t : DTV) : ℤ ×ₗ ℤ :=
  toLex ((dget_price t).getD (10 ^ 18), -(dlg_launch_key t.launch_date : ℤ))

/-- The mid-price target `int(budget_max * 0.70)` (exact truncation; the
source computes it through a binary float). -/
def mid_target (budget_max : ℤ) : ℤ := (budget_max * 7).tdiv 10

/-- The mid-price sort key of `_pick_low_and_mid`: distance to the target
ascending, launch month descending, price descending. -/
def mid_key (target : ℤ) (t : DTV) : ℤ ×ₗ ℤ ×ₗ ℤ :=
  toLex (|(dget_price t).getD 0 - target|,
    toLex (-(dlg_launch_key t.launch_date : ℤ), -((dget_price t).getD 0)))

/-- `Dialogue3p2._pick_low_and_mid` (with `target_ratio` fixed to its only
call-site value `0.70`): the cheapest eligible candidate and the one closest
to 70% of the budget, re-picking the mid on a model collision with the low. -/
def pick_low_and_mid (pool : List DTV) (used_models : List String)
    (budget_max : ℤ) : Option DTV × Option DTV :=
  let cand := plm_cand pool used_models budget_max
  if cand.isEmpty then (none, none)
  else
    let low_sorted := keySort low_key cand
    let low_best := low_sorted.head?
    let mid_sorted := keySort (mid_key (mid_target budget_max)) cand
    let mid_best0 := mid_sorted.head?
    let mid_best :=
      match low_best, mid_best0 with
      | some lb, some mb =>
        if model_of lb = model_of mb then
          match (mid_sorted.drop 1).find? (fun t => !(model_of t == model_of lb)) with
          | some t => some t
          | none => some mb
        else some mb
      | _, mb => mb
    (low_best, mid_best)

/-- The result of one 3+2 selection (`Dialogue3p2._run_3p2` before text
rendering). -/
structure Reco3p2 where
  top3 : List DTV
  low : Option DTV
  mid : Option DTV
deriving DecidableEq, Repr

/-- The filtered, sorted pool inside `Dialogue3p2._run_3p2` (its `items`
local after exclude, budget/price filter and sort; the `tv_rank.tool_call`
fetch is the explicit `items` parameter). -/
def sel_items (items : List DTV) (brand_mode : String) (brand_list : List String)
    (budget_max : ℤ) : List DTV :=
  sort_recent_then_price
    (apply_budget_and_price_filter (apply_brand_exclude items brand_mode brand_list)
      budget_max)

/-- The `used_models` set of `Dialogue3p2._run_3p2` (nonempty Top-3 models). -/
def sel_used (items : List DTV) (brand_mode : String) (brand_list : List String)
    (budget_max : ℤ) : List String :=
  (((sel_items items brand_mode brand_list budget_max).take 3).map model_of).filter
    (fun m => m ≠ "")

/-- The selection core of `Dialogue3p2._run_3p2`: Top-3 plus the two
alternates. -/
def run_3p2_select (items : List DTV) (brand_mode : String)
    (brand_list : List String) (budget_max : ℤ) : Reco3p2 :=
  let its := sel_items items brand_mode brand_list budget_max
  let top3 := its.take 3
  let lm := pick_low_and_mid its (sel_used items brand_mode brand_list budget_max)
    budget_max
  ⟨top3, lm.1, lm.2⟩

/-! ## `agent/dialogue_3p2.py` — dialogue state machine -/

/-- `dialogue_3p2.DialogState`. -/
structure DialogState where
  size : Option ℤ
  budget_max : Option ℤ
  scene : Option String
  brand_mode : String
  brand_list : List String
  brand_asked : Bool
deriving DecidableEq, Repr

/-- `Dialogue3p2.reset_state`. -/
def d3p2_reset_state : DialogState :=
  ⟨none, none, none, "any", [], false⟩

/-- One reply of `Dialogue3p2.chat`. -/
structure ChatOut where
  reply : String
  state : DialogState
  done : Bool
deriving DecidableEq, Repr

/-- The fixed question/hint texts of `Dialogue3p2.chat`. -/
def d3p2_hint : String := "你可以按顺序输入：75 / 13k / ps5 / 只要 tcl（或 排除 tcl）"

/-- Reset confirmation of `Dialogue3p2.chat`. -/
def d3p2_reset_reply : String := "✅ 已重置。Q1/4：你要多大尺寸？（例：75 / 65 / 85）"

/-- Question 1 of `Dialogue3p2.chat`. -/
def d3p2_q1 : String := "Q1/4：你要多大尺寸？（例：75 / 65 / 85）"

/-- Question 2 of `Dialogue3p2.chat`. -/
def d3p2_q2 : String := "Q2/4：预算上限多少？（例：6000 / 1.2万 / 8k / 13k）"

/-- Question 3 of `Dialogue3p2.chat`. -/
def d3p2_q3 : String := "Q3/4：主要场景是什么？（movie / ps5 / bright / sport）"

/-- Question 4 of `Dialogue3p2.chat`. -/
def d3p2_q4 : String := "Q4/4：品牌态度？（无所谓 / 只要 某品牌 / 排除 某品牌）"

/-- `Dialogue3p2.chat`: the fixed-four-question controller.  `run_reply`
abstracts `Dialogue3p2._run_3p2`'s text rendering (which queries the DB);
the state handling is embedded verbatim.  Note that after a completed round
the returned state is **not** reset: a further input falls into the final
branch and reproduces a recommendation from the stored slots. -/
def d3p2_chat (run_reply : DialogState → String) (user_text : String)
    (st : DialogState) : ChatOut :=
  let text := String.mk (trimChars (chars user_text))
  if text = "" then ⟨d3p2_hint, st, false⟩
  else if String.mk (lowerChars (chars text)) = "reset" then
    ⟨d3p2_reset_reply, d3p2_reset_state, false⟩
  else if String.mk (lowerChars (chars text)) = "exit" then ⟨"bye", st, true⟩
  else if st.size = none then
    match safe_size text with
    | none => ⟨d3p2_q1, st, false⟩
    | some v => ⟨d3p2_q2, { st with size := some v }, false⟩
  else if st.budget_max = none then
    match safe_int_from_text text with
    | none => ⟨d3p2_q2, st, false⟩
    | some v =>
      if v ≤ 0 then ⟨d3p2_q2, st, false⟩
      else ⟨d3p2_q3, { st with budget_max := some v }, false⟩
  else if st.scene = none then
    match norm_scene text with
    | none => ⟨d3p2_q3, st, false⟩
    | some v => ⟨d3p2_q4, { st with scene := some v }, false⟩
  else if ¬ st.brand_asked then
    match parse_brand_attitude text with
    | (none, _) => ⟨d3p2_q4, st, false⟩
    | (some mode, brands) =>
      let st1 := { st with brand_mode := mode, brand_list := brands, brand_asked := true }
      ⟨run_reply st1, st1, true⟩
  else ⟨run_reply st, st, true⟩

/-! ## `tools_cli/tv_rank.py` — newest-first ranking tool -/

/-- A candidate row as returned by `run_reco.list_candidates` to
`tv_rank.rank_newest_first`. -/
structure RankTV where
  brand : String
  model : String
  size_inch : ℤ
  street_rmb : Option ℤ
  launch_date : Option String
deriving DecidableEq, Repr

/-- `tv_rank._safe_price` on a stored numeric-or-absent price (the
digit-extraction string branch is outside the numeric model). -/
def safe_price (v : Option ℤ) : Option ℤ := v

/-- `tv_rank._filter_no_price`: drop rows whose price is absent or
nonpositive. -/
def filter_no_price (rows : List RankTV) : List RankTV :=
  rows.filter fun r =>
    match safe_price r.street_rmb with
    | none => false
    | some p => decide (0 < p)

/-- `tv_rank._recent_bucket`: 0 for the preferred launch year, 1 for any
other known launch year, 2 when the launch period is missing.  (This is
also the specification's three-way recency bucket.) -/
def recent_bucket (launch_date : Option String) (prefer_year : ℕ) : ℕ :=
  let y := launch_year_from_date launch_date
  if y = prefer_year then 0
  else if 0 < y then 1
  else 2

/-- The sort key of `tv_rank.rank_newest_first`: bucket ascending, launch
date descending, price descending.  No score is involved. -/
def rank_nf_key (prefer_year : ℕ) (t : RankTV) : ℕ ×ₗ ℤ ×ₗ ℤ :=
  toLex (recent_bucket t.launch_date prefer_year,
    toLex (-(date_rank t.launch_date : ℤ), -((safe_price t.street_rmb).getD 0)))

/-- `tv_rank.rank_newest_first` with the `list_candidates` DB fetch replaced
by the explicit row list. -/
def rank_newest_first (cands : List RankTV) (prefer_year : ℕ) : List RankTV :=
  keySort (rank_nf_key prefer_year) (filter_no_price cands)

/-- `topn = max(1, min(50, topn))` of `tv_rank.tool_call`, including the
`_as_int(arguments.get("top"), 3) or 3` defaulting (absent or zero become
3). -/
def clamp_top (top_arg : Option ℤ) : ℤ :=
  let t0 := top_arg.getD 3
  let t1 := if t0 = 0 then 3 else t0
  max 1 (min 50 t1)

/-- One output row of `tv_rank.tool_call`. -/
structure OutItem where
  rank : ℕ
  brand : String
  model : String
  size_inch : ℤ
  price_cny : Option ℤ
  launch_date : Option String
  launch_year : ℕ
deriving DecidableEq, Repr

/-- The `top` list built by `tv_rank.tool_call`: rank, clamp, truncate,
project. -/
def tool_call_top (cands : List RankTV) (top_arg : Option ℤ) (prefer_year : ℕ) :
    List OutItem :=
  let topn := clamp_top top_arg
  let ranked := rank_newest_first cands prefer_year
  (ranked.take topn.toNat).enum.map fun itv =>
    ⟨itv.1 + 1, itv.2.brand, itv.2.model, itv.2.size_inch, itv.2.street_rmb,
      itv.2.launch_date, launch_year_from_date itv.2.launch_date⟩

/-! ## `web/app.py` — session store and `/api/dialog/3p2` handler -/

/-- The slot state kept per web session (`pack["state"]`). -/
structure WebState where
  size : Option ℤ
  budget : Option ℤ
  scene : Option String
  brand : Option String
  brand_any : Bool
deriving DecidableEq, Repr

/-- The all-empty slot state. -/
def empty_web_state : WebState := ⟨none, none, none, none, false⟩

/-- One session entry (`pack`); `last_structured` holds the serialized
structured payload (its content is irrelevant to the embedded logic). -/
structure Pack where
  state : WebState
  ts : ℤ
  last_reply_full : Option String
  last_reply_short : Option String
  last_structured : Option String
  last_state : Option WebState
deriving DecidableEq, Repr

/-- A freshly created session entry (`_get_session`'s new `pack`). -/
def fresh_pack (now : ℤ) : Pack := ⟨empty_web_state, now, none, none, none, none⟩

/-- `app._SESS_TTL_SEC`. -/
def sess_ttl_sec : ℤ := 60 * 60 * 24

/-- `app._gc_sessions`: nothing is evicted while the store holds fewer than
2000 entries; otherwise every entry older than the TTL is dropped.  Session
ids are abstracted to `ℕ` and the dict to an association list. -/
def gc_sessions (now : ℤ) (sess : List (ℕ × Pack)) : List (ℕ × Pack) :=
  if sess.length < 2000 then sess
  else sess.filter fun sp => decide (now - sp.2.ts ≤ sess_ttl_sec)

/-- `app._get_session`: garbage-collect, then return the stored entry
(refreshing its timestamp) or install and return a fresh one. -/
def get_session (now : ℤ) (sess : List (ℕ × Pack)) (sid : ℕ) :
    Pack × List (ℕ × Pack) :=
  let sess1 := gc_sessions now sess
  match sess1.lookup sid with
  | some pack =>
    let pack1 := { pack with ts := now }
    (pack1, sess1.map fun sp => if sp.1 = sid then (sid, pack1) else sp)
  | none =>
    let pack := fresh_pack now
    (pack, sess1 ++ [(sid, pack)])

/-- The slots extracted from one text by `app.parse_slots`, plus its
`_reset` marker.  (`parse_slots` itself is text analysis; the handler is
embedded over its output.) -/
structure WebSlots where
  size : Option ℤ
  budget : Option ℤ
  scene : Option String
  brand : Option String
  brand_any : Bool
  is_reset : Bool
deriving DecidableEq, Repr

/-- Slots of a text from which nothing was parsed. -/
def empty_web_slots : WebSlots := ⟨none, none, none, none, false, false⟩

/-- One request to `/api/dialog/3p2` after text analysis: whether the
normalized text is a show-more token (`更多` / `more` / …), the parsed
slots, and the optional `state` override of the request body. -/
structure WebIn where
  is_more : Bool
  slots : WebSlots
  state_override : Option WebState
deriving DecidableEq, Repr

/-- The request made by the text `"reset"` (`parse_slots` marks `_reset`). -/
def web_reset_in : WebIn := ⟨false, ⟨none, none, none, none, false, true⟩, none⟩

/-- The request made by the text `"更多"` (a show-more token). -/
def web_more_in : WebIn := ⟨true, empty_web_slots, none⟩

/-- `app._merge_state`: parsed non-`None` slots overwrite the stored ones;
`brand_any` additionally clears the brand. -/
def merge_state (base : WebState) (sl : WebSlots) : WebState :=
  let out : WebState :=
    { size := match sl.size with | some v => some v | none => base.size
      budget := match sl.budget with | some v => some v | none => base.budget
      scene := match sl.scene with | some v => some v | none => base.scene
      brand := match sl.brand with | some v => some v | none => base.brand
      brand_any := base.brand_any }
  if sl.brand_any then { out with brand_any := true, brand := none } else out

/-- `app._next_missing_slot_4q`. -/
def next_missing_slot_4q (s : WebState) : Option String :=
  if s.size = none then some "size"
  else if s.budget = none then some "budget"
  else if s.scene = none then some "scene"
  else if s.brand = none ∧ ¬ s.brand_any then some "brand"
  else none

/-- `app.QUESTION_TEXT_4Q`. -/
def question_text_4q (slot : String) : String :=
  if slot = "size" then "你想要多大尺寸？比如：75（也可以回“75寸”）"
  else if slot = "budget" then "预算大概多少？比如：13000（或 13k / 1.3万）"
  else if slot = "scene" then "主要用途是什么？回一个就行：ps5 / movie / bright（白天客厅很亮）"
  else if slot = "brand" then "有指定品牌吗？比如：TCL；如果没有就回：不限"
  else ""

/-- The reply of the show-more branch when no cached result exists. -/
def no_show_reply : String :=
  "我还没有上一条结果可展开。你可以先发一句：例如“75 13k ps5 只要tcl”。"

/-- The reply of the reset branch. -/
def web_reset_reply : String := "✅ 已重置。你想要多大尺寸？比如：75（也可以回“75寸”）"

/-- The fallback short reply. -/
def default_short_reply : String := "已生成推荐（回复：更多 查看详细分析）"

/-- The text-producing collaborators of the handler: `recommend` stands for
`app._run_3p2` (recommend_text over the DB), `short`/`structured` for
`app._build_short_and_structured`. -/
structure WebEngine where
  recommend : WebState → String
  short : String → String
  structured : String → String

/-- The response body of `/api/dialog/3p2` (fields relevant to the embedded
logic). -/
structure WebResp where
  ok : Bool
  reply : String
  state : WebState
  done : Bool
  reply_short : Option String
  reply_full : Option String
deriving DecidableEq, Repr

/-- The `/api/dialog/3p2` handler (`app.api_dialog_3p2`) after
`_get_session`, on one session entry: state override, show-more branch,
reset branch, slot merge, question or recommendation; after a successful
recommendation the stored state is reset to the empty state.  (The
`try/except` around the engine call is not modelled: the engine here is a
total function.) -/
def api_dialog_3p2_step (eng : WebEngine) (pack0 : Pack) (inp : WebIn) :
    WebResp × Pack :=
  let pack := match inp.state_override with
    | some s => { pack0 with state := s }
    | none => pack0
  if inp.is_more then
    let last_state := pack.last_state.getD pack.state
    match pack.last_reply_full with
    | some full =>
      (⟨true, full, last_state, true, pack.last_reply_short, some full⟩, pack)
    | none => (⟨true, no_show_reply, last_state, false, none, none⟩, pack)
  else if inp.slots.is_reset then
    let pack1 := { pack with
      state := empty_web_state
      last_reply_full := none
      last_reply_short := none
      last_structured := none
      last_state := none }
    (⟨true, web_reset_reply, empty_web_state, false, none, none⟩, pack1)
  else
    let state := merge_state pack.state inp.slots
    let pack1 := { pack with state := state }
    match next_missing_slot_4q state with
    | some slot => (⟨true, question_text_4q slot, state, false, none, none⟩, pack1)
    | none =>
      let full := eng.recommend state
      let short0 := eng.short full
      let short := if short0 = "" then default_short_reply else short0
      let pack2 := { pack1 with
        last_reply_full := some full
        last_reply_short := some short
        last_structured := some (eng.structured full)
        last_state := some state
        state := empty_web_state }
      (⟨true, short, state, true, some short, some full⟩, pack2)

/-! ## Specification-side definition used to refute claim C5 -/

/-- The mid-price preference order exactly as the specification words it:
smallest `|price − 0.70 × budgetCeiling|` (no integer truncation of the
target), ties broken by newer launch period, then by higher price.  This
definition follows the spec, not the source; it is compared against the
source's `mid_key`. -/
def spec_mid_key (budget_max : ℤ) (t : DTV) : ℚ ×ₗ ℤ ×ₗ ℤ :=
  toLex (|((dget_price t).getD 0 : ℚ) - (7 / 10) * (budget_max : ℚ)|,
    toLex (-(dlg_launch_key t.launch_date : ℤ), -((dget_price t).getD 0)))

/-! ## Concrete instances used by counterexamples and witnesses -/

/-- Profile with one weighted, inverted metric `m`. -/
def prof_c1 : Profile := ⟨[("m", 1)], ["m"], [], []⟩

/-- Candidate whose metric `m` is absent. -/
def rtv_c1_absent : RTV := ⟨some "bX", "X", some "2026-01", []⟩

/-- Candidate with the minimal present value of `m`. -/
def rtv_c1_low : RTV := ⟨some "bA", "A", some "2026-01", [("m", 0)]⟩

/-- Candidate with the maximal present value of `m`. -/
def rtv_c1_high : RTV := ⟨some "bB", "B", some "2026-01", [("m", 10)]⟩

/-- Profile with one weighted, non-inverted metric `m`. -/
def prof_c2 : Profile := ⟨[("m", 1)], [], [], []⟩

/-- Candidate with a known launch period (2025) and the low metric value. -/
def rtv_c2_dated : RTV := ⟨some "bA", "A", some "2025-06", [("m", 0)]⟩

/-- Candidate with no launch period and the high metric value. -/
def rtv_c2_undated : RTV := ⟨some "bB", "B", none, [("m", 10)]⟩

/-- Profile with no weights (every score is 0). -/
def prof_c4 : Profile := ⟨[], [], [], []⟩

/-- Candidate whose stored price is 0 (present but non-positive). -/
def rtv_c4_zero : RTV := ⟨some "b", "Z", some "2026-01", [("street_rmb", 0)]⟩

/-- Candidate with a normal price, used by the C4 witness. -/
def rtv_c4_ok : RTV := ⟨some "b", "W", some "2026-01", [("street_rmb", 100)]⟩

/-- The scored form of `rtv_c4_ok` under `prof_c4` (score 0, year 2026). -/
def scored_c4_ok : ScoredTV := ⟨rtv_c4_ok, 0, 2026, []⟩

/-- Dialogue item: model `A`, ￥5000, 2026-03. -/
def dtv_a1 : DTV := ⟨"b", "A", 75, some 5000, none, none, some "2026-03"⟩

/-- Dialogue item: model `A` again, ￥4000, 2026-02. -/
def dtv_a2 : DTV := ⟨"b", "A", 75, some 4000, none, none, some "2026-02"⟩

/-- Dialogue item: model `B`, ￥3000, 2026-01. -/
def dtv_b : DTV := ⟨"b", "B", 75, some 3000, none, none, some "2026-01"⟩

/-- Dialogue item: model `Y`, ￥1000, 2025-12. -/
def dtv_y : DTV := ⟨"b", "Y", 75, some 1000, none, none, some "2025-12"⟩

/-- Dialogue items: five distinct models inside budget (C3 witness). -/
def dtv_c : DTV := ⟨"b", "C", 75, some 2000, none, none, some "2025-11"⟩

/-- Dialogue item: model `E`, ￥1500, 2025-10 (C3 witness). -/
def dtv_e : DTV := ⟨"b", "E", 75, some 1500, none, none, some "2025-10"⟩

/-- Dialogue item: the cheap model `Z` (C5). -/
def dtv_z : DTV := ⟨"b", "Z", 75, some 100, none, none, some "2026-01"⟩

/-- Dialogue item: model `X` at ￥703, exactly the truncated target for a
budget of 1005 (C5). -/
def dtv_x : DTV := ⟨"b", "X", 75, some 703, none, none, some "2026-01"⟩

/-- Dialogue item: model `Y2` at ￥704, the spec-side winner for a budget of
1005 (C5). -/
def dtv_y2 : DTV := ⟨"b", "Y2", 75, some 704, none, none, some "2026-01"⟩

/-- Dialogue state with the first three slots filled, before Q4. -/
def d3p2_st3 : DialogState := ⟨some 75, some 13000, some "ps5", "any", [], false⟩

/-- Dialogue state right after a completed round (all four slots filled). -/
def d3p2_st_full : DialogState :=
  ⟨some 75, some 13000, some "ps5", "only", ["tcl"], true⟩

/-- A session entry with a stale timestamp, filled slots, and a cached
result. -/
def stale_pack_c7 : Pack :=
  ⟨⟨some 75, none, none, none, false⟩, 0, some "old", none, none, none⟩

/-- A 2000-entry session store in which every entry is expired at time
`1000000`. -/
def big_stale_sess : List (ℕ × Pack) :=
  (List.range 2000).map fun i => (i, stale_pack_c7)

/-- A concrete web engine for witnesses (text generation is irrelevant to
the embedded logic). -/
def eng_w : WebEngine := ⟨fun _ => "FULL", fun _ => "SHORT", fun _ => "STRUCT"⟩

/-- A request carrying all four slots at once (C6 witness). -/
def web_in_full : WebIn :=
  ⟨false, ⟨some 75, some 13000, some "ps5", some "TCL", false, false⟩, none⟩

/-- A request carrying no slots at all (C6 witness). -/
def web_in_blank : WebIn := ⟨false, empty_web_slots, none⟩

/-! ## General helper lemmas -/

theorem keySort_perm {α β : Type} [LinearOrder β] (f : α → β) (l : List α) :
    (keySort f l).Perm l :=
  List.perm_insertionSort _ l

theorem mem_keySort {α β : Type} [LinearOrder β] {f : α → β} {l : List α} {a : α} :
    a ∈ keySort f l ↔ a ∈ l :=
  (keySort_perm f l).mem_iff

theorem keySort_sorted {α β : Type} [LinearOrder β] (f : α → β) (l : List α) :
    (keySort f l).Sorted (keyRel f) :=
  List.sorted_insertionSort _ l

theorem keySort_head_min {α β : Type} [LinearOrder β] {f : α → β} {l : List α}
    {m : α} {rest : List α} (h : keySort f l = m :: rest) :
    ∀ a ∈ l, f m ≤ f a := by
  intro a ha
  have ha2 : a ∈ m :: rest := h ▸ mem_keySort.mpr ha
  rcases List.mem_cons.mp ha2 with rfl | ha3
  · exact le_refl _
  · have hs : (m :: rest).Sorted (keyRel f) := h ▸ keySort_sorted f l
    exact List.rel_of_sorted_cons hs a ha3

theorem sorted_find?_min {α β : Type} [LinearOrder β] {f : α → β} {p : α → Bool} :
    ∀ {l : List α}, l.Sorted (keyRel f) → ∀ {m : α}, l.find? p = some m →
      ∀ a ∈ l, p a = true → f m ≤ f a := by
  intro l
  induction l with
  | nil => intro _ m hm; cases hm
  | cons h t ih =>
    intro hs m hm a ha hpa
    by_cases hph : p h = true
    · rw [List.find?_cons_of_pos _ hph] at hm
      injection hm with hm
      subst hm
      rcases List.mem_cons.mp ha with rfl | hat
      · exact le_refl _
      · exact List.rel_of_sorted_cons hs a hat
    · rw [List.find?_cons_of_neg _ hph] at hm
      rcases List.mem_cons.mp ha with rfl | hat
      · exact absurd hpa hph
      · exact ih hs.of_cons hm a hat hpa

theorem lookup_filter_none {β : Type} {sid : ℕ} {keep : ℕ × β → Bool} :
    ∀ {sess : List (ℕ × β)},
      (∀ p : β, (sid, p) ∈ sess → keep (sid, p) = false) →
      (sess.filter keep).lookup sid = none := by
  intro sess
  induction sess with
  | nil => intro _; rfl
  | cons hd t ih =>
    intro hall
    rcases hd with ⟨k, v⟩
    by_cases hk : keep (k, v) = true
    · rw [List.filter_cons_of_pos hk]
      by_cases hks : k = sid
      · subst hks
        rw [hall v (List.mem_cons_self _ _)] at hk
        cases hk
      · have hbeq : (sid == k) = false :=
          beq_eq_false_iff_ne.mpr fun he => hks he.symm
        simp only [List.lookup, hbeq]
        exact ih fun p hp => hall p (List.mem_cons_of_mem _ hp)
    · rw [List.filter_cons_of_neg hk]
      exact ih fun p hp => hall p (List.mem_cons_of_mem _ hp)

theorem lookup_none_filter {β : Type} {sid : ℕ} {keep : ℕ × β → Bool} :
    ∀ {sess : List (ℕ × β)}, sess.lookup sid = none →
      (sess.filter keep).lookup sid = none := by
  intro sess
  induction sess with
  | nil => intro _; rfl
  | cons hd t ih =>
    intro hl
    rcases hd with ⟨k, v⟩
    by_cases hks : (sid == k) = true
    · simp only [List.lookup, hks] at hl
      cases hl
    · rw [Bool.not_eq_true] at hks
      simp only [List.lookup, hks] at hl
      by_cases hk : keep (k, v) = true
      · rw [List.filter_cons_of_pos hk]
        simp only [List.lookup, hks]
        exact ih hl
      · rw [List.filter_cons_of_neg hk]
        exact ih hl

theorem foldl_add_snd_eq_sum :
    ∀ (l : List (String × ℚ)) (a : ℚ),
      l.foldl (fun acc kv => acc + kv.2) a = a + (l.map Prod.snd).sum := by
  intro l
  induction l with
  | nil => intro a; simp
  | cons h t ih => intro a; simp [ih, add_assoc]

theorem lookup_bool_normalize {bm : List String} {k : String} (hk : k ∉ bm) :
    ∀ l : List (String × ℚ),
      (l.map fun kv => if kv.1 ∈ bm then (kv.1, to_bool01 kv.2) else kv).lookup k
        = l.lookup k := by
  intro l
  induction l with
  | nil => rfl
  | cons hd t ih =>
    rcases hd with ⟨k1, v1⟩
    simp only [List.map_cons]
    by_cases hm : k1 ∈ bm
    · have hne : (k == k1) = false :=
        beq_eq_false_iff_ne.mpr fun he => hk (by rw [he]; exact hm)
      rw [if_pos hm]
      simp only [List.lookup, hne, ih]
    · rw [if_neg hm]
      simp only [List.lookup, ih]

theorem rtvGet_bool_normalize {bm : List String} {k : String} (hk : k ∉ bm)
    (tv : RTV) : rtvGet (bool_normalize bm tv) k = rtvGet tv k :=
  lookup_bool_normalize hk tv.metrics

theorem mem_of_head?_eq_some {α : Type} {l : List α} {a : α}
    (h : l.head? = some a) : a ∈ l := by
  rcases l with _ | ⟨b, t⟩
  · cases h
  · injection h with h1
    subst h1
    exact List.mem_cons_self _ _

theorem mem_apply_filters_budget {pool : List RTV} {brand : Option String}
    {b : ℚ} {tv : RTV} (h : tv ∈ apply_filters pool brand (some b)) :
    ∃ p, rtvGet tv "street_rmb" = some p ∧ p ≤ b := by
  have h2 := (List.mem_filter.mp h).2
  rw [Bool.and_eq_true] at h2
  have h3 := h2.2
  rcases hp : rtvGet tv "street_rmb" with _ | p
  · rw [hp] at h3
    cases h3
  · rw [hp] at h3
    simp only [parse_price, decide_eq_true_eq] at h3
    exact ⟨p, rfl, h3⟩

theorem mem_budget_price_filter {items : List DTV} {B : ℤ} {t : DTV}
    (h : t ∈ apply_budget_and_price_filter items B) :
    ∃ p, dget_price t = some p ∧ 0 < p ∧ p ≤ B := by
  have h2 := (List.mem_filter.mp h).2
  rcases hp : dget_price t with _ | p
  · rw [hp] at h2
    cases h2
  · rw [hp] at h2
    simp only [Bool.and_eq_true, decide_eq_true_eq] at h2
    exact ⟨p, rfl, h2.1, h2.2⟩

theorem mem_plm_cand {pool : List DTV} {used : List String} {B : ℤ} {t : DTV}
    (h : t ∈ plm_cand pool used B) :
    (model_of t ≠ "" ∧ model_of t ∉ used) ∧
      ∃ p, dget_price t = some p ∧ 0 < p ∧ p ≤ B := by
  have h2 := (List.mem_filter.mp h).2
  rw [Bool.and_eq_true] at h2
  have hA := h2.1
  have hB := h2.2
  rw [Bool.not_eq_true', Bool.or_eq_false_iff] at hA
  refine ⟨⟨?_, ?_⟩, ?_⟩
  · simpa using hA.1
  · intro hmem
    have := hA.2
    rw [List.contains_eq_any_beq] at this
    have : used.any (fun x => model_of t == x) = false := this
    rw [List.any_eq_false] at this
    exact absurd (by simp : (model_of t == model_of t) = true)
      (by simpa using this (model_of t) hmem)
  · rcases hp : dget_price t with _ | p
    · rw [hp] at hB
      cases hB
    · rw [hp] at hB
      simp only [Bool.and_eq_true, decide_eq_true_eq] at hB
      exact ⟨p, rfl, hB.1, hB.2⟩

theorem pick_low_mem {pool : List DTV} {used : List String} {B : ℤ} {l : DTV}
    {m : Option DTV} (h : pick_low_and_mid pool used B = (some l, m)) :
    l ∈ plm_cand pool used B ∧
      ∀ t ∈ plm_cand pool used B, low_key l ≤ low_key t := by
  have hfst := congrArg Prod.fst h
  by_cases he : (plm_cand pool used B).isEmpty
  · simp only [pick_low_and_mid, if_pos he] at hfst
    cases hfst
  · simp only [pick_low_and_mid, if_neg he] at hfst
    have hne : keySort low_key (plm_cand pool used B) ≠ [] := by
      intro h0
      have hlen := (keySort_perm low_key (plm_cand pool used B)).length_eq
      rw [h0] at hlen
      rw [List.isEmpty_iff] at he
      exact he (List.length_eq_zero.mp hlen.symm)
    obtain ⟨b0, rest, hEq⟩ := List.exists_cons_of_ne_nil hne
    rw [hEq] at hfst
    simp only [List.head?_cons] at hfst
    injection hfst with hfst
    subst hfst
    constructor
    · exact mem_keySort.mp (hEq ▸ List.mem_cons_self _ _)
    · exact keySort_head_min hEq

theorem pick_mid_spec {pool : List DTV} {used : List String} {B : ℤ} {l m : DTV}
    (h : pick_low_and_mid pool used B = (some l, some m)) :
    m ∈ plm_cand pool used B ∧
    (∀ t ∈ plm_cand pool used B, model_of t ≠ model_of l →
      mid_key (mid_target B) m ≤ mid_key (mid_target B) t) ∧
    ((∃ w ∈ plm_cand pool used B, model_of w ≠ model_of l) →
      model_of m ≠ model_of l) := by
  have hlow := pick_low_mem h
  have hfst := congrArg Prod.fst h
  have hsnd := congrArg Prod.snd h
  by_cases he : (plm_cand pool used B).isEmpty
  · simp only [pick_low_and_mid, if_pos he] at hfst
    cases hfst
  · simp only [pick_low_and_mid, if_neg he] at hfst hsnd
    have hnem : keySort (mid_key (mid_target B)) (plm_cand pool used B) ≠ [] := by
      intro h0
      have hlen := (keySort_perm (mid_key (mid_target B)) (plm_cand pool used B)).length_eq
      rw [h0] at hlen
      rw [List.isEmpty_iff] at he
      exact he (List.length_eq_zero.mp hlen.symm)
    obtain ⟨mb, mtail, hmsEq⟩ := List.exists_cons_of_ne_nil hnem
    have hsortms : (mb :: mtail).Sorted (keyRel (mid_key (mid_target B))) :=
      hmsEq ▸ keySort_sorted (mid_key (mid_target B)) (plm_cand pool used B)
    rcases hL : (keySort low_key (plm_cand pool used B)).head? with _ | lb
    · rw [hL] at hfst
      cases hfst
    · rw [hL] at hfst hsnd
      injection hfst with hfst
      rw [hfst] at hsnd
      rw [hmsEq] at hsnd
      simp only [List.head?_cons] at hsnd
      by_cases hmod : model_of l = model_of mb
      · rw [if_pos hmod, List.drop_one, List.tail_cons] at hsnd
        rcases hf : mtail.find? (fun t => !(model_of t == model_of l)) with _ | tfound
        · rw [hf] at hsnd
          injection hsnd with hsnd
          subst hsnd
          have hall : ∀ u ∈ plm_cand pool used B, model_of u = model_of l := by
            intro u hu
            have hu2 : u ∈ mb :: mtail := hmsEq ▸ mem_keySort.mpr hu
            rcases List.mem_cons.mp hu2 with rfl | hu3
            · exact hmod.symm
            · have := List.find?_eq_none.mp hf u hu3
              simp only [Bool.not_eq_true', beq_eq_false_iff_ne, not_not] at this
              exact this
          refine ⟨?_, ?_, ?_⟩
          · exact mem_keySort.mp (hmsEq ▸ List.mem_cons_self _ _)
          · intro t ht htm
            exact absurd (hall t ht) htm
          · intro hw
            obtain ⟨w, hw1, hw2⟩ := hw
            exact absurd (hall w hw1) hw2
        · rw [hf] at hsnd
          injection hsnd with hsnd
          subst hsnd
          have hmem : tfound ∈ mb :: mtail :=
            List.mem_cons_of_mem _ (List.mem_of_find?_eq_some hf)
          have hp := List.find?_some hf
          simp only [Bool.not_eq_true', beq_eq_false_iff_ne] at hp
          refine ⟨?_, ?_, fun _ => hp⟩
          · exact mem_keySort.mp (hmsEq ▸ hmem)
          · intro t ht htm
            have ht2 : t ∈ mb :: mtail := hmsEq ▸ mem_keySort.mpr ht
            rcases List.mem_cons.mp ht2 with rfl | ht3
            · exact absurd hmod.symm htm
            · refine sorted_find?_min hsortms.of_cons hf t ht3 ?_
              simp only [Bool.not_eq_true', beq_eq_false_iff_ne]
              exact htm
      · rw [if_neg hmod] at hsnd
        injection hsnd with hsnd
        subst hsnd
        refine ⟨?_, ?_, fun _ => fun hc => hmod hc.symm⟩
        · exact mem_keySort.mp (hmsEq ▸ List.mem_cons_self _ _)
        · intro t ht _
          exact keySort_head_min hmsEq t ht

theorem mem_get_top3 {prof : Profile} {pool : List RTV} {brand : Option String}
    {budget : Option ℚ} {yp : ℕ} {nowY nowM : ℤ} {s : ScoredTV}
    (h : s ∈ get_top3 prof pool brand budget yp nowY nowM) :
    ∃ tv0 ∈ apply_filters pool brand budget,
      s.tv = bool_normalize prof.boolean_metrics tv0 := by
  by_cases he : (apply_filters pool brand budget).isEmpty
  · simp only [get_top3, if_pos he] at h
    cases h
  · simp only [get_top3, if_neg he] at h
    have h2 := mem_keySort.mp ((List.take_sublist 3 _).subset h)
    obtain ⟨tv2, htv2, hs⟩ := List.mem_map.mp h2
    obtain ⟨tv0, htv0, hb⟩ := List.mem_map.mp htv2
    refine ⟨tv0, htv0, ?_⟩
    rw [← hs, ← hb]
    rfl

theorem keySort_ne_nil {α β : Type} [LinearOrder β] {f : α → β} {l : List α}
    (h : ¬ l.isEmpty = true) : keySort f l ≠ [] := by
  intro h0
  have hlen := (keySort_perm f l).length_eq
  rw [h0] at hlen
  rw [List.isEmpty_iff] at h
  exact h (List.length_eq_zero.mp hlen.symm)

theorem pick_mid_mem {pool : List DTV} {used : List String} {B : ℤ} {m : DTV}
    (h : (pick_low_and_mid pool used B).2 = some m) :
    m ∈ plm_cand pool used B := by
  by_cases he : (plm_cand pool used B).isEmpty
  · simp only [pick_low_and_mid, if_pos he] at h
    cases h
  · obtain ⟨b0, rest, hEq⟩ :=
      List.exists_cons_of_ne_nil (keySort_ne_nil (f := low_key) he)
    have hfst : (pick_low_and_mid pool used B).1 = some b0 := by
      simp only [pick_low_and_mid, if_neg he, hEq, List.head?_cons]
    have hpair : pick_low_and_mid pool used B = (some b0, some m) := by
      rw [← hfst, ← h]
    exact (pick_mid_spec hpair).1

/-! ## Claim C1 — contribution of an absent metric value -/

/-- Claim C1, counterexample: in the scoring engine at an explicit input, a
candidate (`X`) whose inverted weighted metric `m` is absent receives a
contribution of `1` (the full weight), not `0`, for that metric, and it
out-scores the candidate `B` whose present value of `m` is maximal — so an
absent value does increase the score relative to a present value,
contradicting the claim. -/
theorem C1_cex :
    (get_top3 prof_c1 [rtv_c1_absent, rtv_c1_low, rtv_c1_high] none none
        2026 2026 1).map (fun s => (s.tv.model, s.score, s.parts.lookup "m")) =
      [("X", 1, some 1), ("A", 1, some 1), ("B", 0, some 0)] ∧
    rtvGet rtv_c1_absent "m" = none ∧ (1 : ℚ) ≠ 0 :=
  ⟨of_decide_eq_true (by with_unfolding_all rfl), rfl, by norm_num⟩

/-- Claim C1, amended: in the weighted base-score sum of the scoring engine,
a candidate whose value for a weighted metric is absent receives a
contribution of exactly `0` when the metric is **not** in the inverted set,
but the full weight `w` (normalized value `1`) when the metric **is** in the
inverted set; in both cases the metric is still included in the sum (the
base score is exactly the sum of the per-metric contributions). -/
theorem C1_amended :
    (∀ (negm : List String) (k : String) (w lo hi : ℚ),
      (k ∉ negm → metric_contribution negm k w lo hi none = 0) ∧
      (k ∈ negm → metric_contribution negm k w lo hi none = w)) ∧
    (∀ (prof : Profile) (stat : List (String × (ℚ × ℚ))) (tv : RTV),
      base_score prof stat tv = ((score_parts prof stat tv).map Prod.snd).sum) := by
  constructor
  · intro negm k w lo hi
    constructor
    · intro h
      simp [metric_contribution, norm_pos, if_neg h]
    · intro h
      simp [metric_contribution, norm_neg, norm_pos, if_pos h]
  · intro prof stat tv
    simpa using foldl_add_snd_eq_sum (score_parts prof stat tv) 0

/-- Witness for C1: the amended theorem evaluated at a concrete metric. -/
theorem C1_amended_witness :
    metric_contribution [] "m" 5 0 10 none = 0 ∧
    metric_contribution ["m"] "m" 5 0 10 none = 5 :=
  ⟨(C1_amended.1 [] "m" 5 0 10).1 (by simp),
   (C1_amended.1 ["m"] "m" 5 0 10).2 (by simp)⟩

/-! ## Claim C2 — ordering of the ranked output -/

/-- Claim C2, counterexample: at an explicit input, `get_top3` orders a
candidate with **no** launch period (`B`, specification bucket 2 as computed
by the source's own `_recent_bucket`) before a candidate with a known 2025
launch (`A`, specification bucket 1), because its recency flag is binary:
both fall into the same flag and the higher score wins — contradicting the
claimed ascending 0/1/2 bucket order. -/
theorem C2_cex :
    (get_top3 prof_c2 [rtv_c2_dated, rtv_c2_undated] none none 2026 2026 1).map
        (fun s => s.tv.model) = ["B", "A"] ∧
    recent_bucket (some "2025-06") 2026 = 1 ∧ recent_bucket none 2026 = 2 :=
  ⟨of_decide_eq_true (by with_unfolding_all rfl), by decide, by decide⟩

theorem top3_r_cases {yp : ℕ} {a b : ScoredTV} (h : top3_r yp a b) :
    top3_bucket yp a < top3_bucket yp b ∨
      (top3_bucket yp a = top3_bucket yp b ∧ b.score ≤ a.score) := by
  have h2 : top3_key yp a ≤ top3_key yp b := h
  rw [top3_key, top3_key] at h2
  rcases (Prod.Lex.le_iff _ _).mp h2 with hlt | ⟨heq, hrest⟩
  · exact Or.inl hlt
  · refine Or.inr ⟨heq, ?_⟩
    rcases (Prod.Lex.le_iff _ _).mp hrest with hlt2 | ⟨heq2, _⟩
    · exact le_of_lt (neg_lt_neg_iff.mp hlt2)
    · exact (neg_inj.mp heq2).symm.le

/-- Claim C2, amended: the scored ranking `get_top3` orders its output by a
**two**-way recency flag (0 iff the launch year equals the preferred year;
candidates with no launch period share flag 1 with all other years), then
score descending, then launch date descending; in particular, within equal
flags, a strictly higher score is ordered first.  The newest-first tool
ranking `rank_newest_first` does use the three-way 0/1/2 bucket, but orders
by launch date and price, not by score. -/
theorem C2_amended :
    (∀ (prof : Profile) (pool : List RTV) (brand : Option String)
        (budget : Option ℚ) (yp : ℕ) (nowY nowM : ℤ),
      (get_top3 prof pool brand budget yp nowY nowM).Sorted (top3_r yp) ∧
      (get_top3 prof pool brand budget yp nowY nowM).Pairwise
        (fun a b => top3_bucket yp a < top3_bucket yp b ∨
          (top3_bucket yp a = top3_bucket yp b ∧ b.score ≤ a.score))) ∧
    (∀ (cands : List RankTV) (py : ℕ),
      (rank_newest_first cands py).Sorted (keyRel (rank_nf_key py))) := by
  constructor
  · intro prof pool brand budget yp nowY nowM
    have hsorted : (get_top3 prof pool brand budget yp nowY nowM).Sorted
        (top3_r yp) := by
      by_cases he : (apply_filters pool brand budget).isEmpty
      · rw [List.isEmpty_iff] at he
        simp [get_top3, he, List.Sorted]
      · simp only [get_top3, if_neg he]
        exact List.Pairwise.sublist (List.take_sublist _ _) (keySort_sorted _ _)
    exact ⟨hsorted, hsorted.imp fun hab => top3_r_cases hab⟩
  · intro cands py
    exact keySort_sorted _ _

/-! ## Claim C8 — reset erases the cached result -/

/-- Claim C8, confirmed: in the web handler, a `reset` request followed
immediately by a show-more request yields the "nothing to show" reply with
`done = false`, for every session entry and engine — no cached result
survives a reset. -/
theorem C8_reset_then_more :
    ∀ (eng : WebEngine) (pack : Pack),
      (api_dialog_3p2_step eng (api_dialog_3p2_step eng pack web_reset_in).2
        web_more_in).1.reply = no_show_reply ∧
      (api_dialog_3p2_step eng (api_dialog_3p2_step eng pack web_reset_in).2
        web_more_in).1.done = false := by
  intro eng pack
  exact ⟨rfl, rfl⟩

/-! ## Claim C10 — clamping of the requested result count -/

/-- Claim C10, confirmed: the ranking tool clamps the requested result count
into `[1, 50]` before truncating, so its `top` list never holds more than
50 entries; in particular the conversational engine's request for 300
receives at most 50 candidates (`clamp_top (some 300) = 50`). -/
theorem C10_top_clamp :
    ∀ (cands : List RankTV) (top_arg : Option ℤ) (prefer_year : ℕ),
      1 ≤ clamp_top top_arg ∧ clamp_top top_arg ≤ 50 ∧
      (tool_call_top cands top_arg prefer_year).length ≤ 50 ∧
      clamp_top (some 300) = 50 := by
  intro cands targ py
  have hle : clamp_top targ ≤ 50 := by
    simp only [clamp_top]
    exact max_le (by norm_num) (min_le_left _ _)
  refine ⟨le_max_left 1 _, hle, ?_, by decide⟩
  simp only [tool_call_top, List.length_map, List.enum_length]
  exact le_trans (List.length_take_le _ _) (Int.toNat_le.mpr hle)

/-! ## Claim C3 — distinctness of Top-3 and the alternates -/

/-- Claim C3, counterexample: at an explicit pool (two rows sharing model
`A`, then `B`, then a single leftover `Y`), the Top-3 contains the model `A`
twice (no deduplication), and both alternates are present yet reference the
same candidate `Y` — contradicting both distinctness statements of the
claim. -/
theorem C3_cex :
    (run_3p2_select [dtv_a1, dtv_a2, dtv_b, dtv_y] "any" [] 6000).top3.map
        model_of = ["A", "A", "B"] ∧
    ¬ ((run_3p2_select [dtv_a1, dtv_a2, dtv_b, dtv_y] "any" [] 6000).top3.map
        model_of).Pairwise (fun a b => a ≠ b) ∧
    (run_3p2_select [dtv_a1, dtv_a2, dtv_b, dtv_y] "any" [] 6000).low =
      some dtv_y ∧
    (run_3p2_select [dtv_a1, dtv_a2, dtv_b, dtv_y] "any" [] 6000).mid =
      some dtv_y :=
  ⟨by decide, by decide, by decide, by decide⟩

/-- Claim C3, amended: the primary list holds at most 3 entries but its
models need **not** be pairwise distinct (the source takes the first three
rows without deduplication); each alternate, when present, has a model
distinct from every Top-3 model; and the two alternates have distinct models
from each other **provided** the eligible pool contains at least two
distinct models (with a single distinct model left, both alternates can be
the same candidate). -/
theorem C3_amended :
    ∀ (items : List DTV) (mode : String) (blist : List String) (B : ℤ),
      (run_3p2_select items mode blist B).top3.length ≤ 3 ∧
      (∀ l, (run_3p2_select items mode blist B).low = some l →
        model_of l ∉ (run_3p2_select items mode blist B).top3.map model_of) ∧
      (∀ m, (run_3p2_select items mode blist B).mid = some m →
        model_of m ∉ (run_3p2_select items mode blist B).top3.map model_of) ∧
      (∀ l m, (run_3p2_select items mode blist B).low = some l →
        (run_3p2_select items mode blist B).mid = some m →
        (∃ u ∈ plm_cand (sel_items items mode blist B)
            (sel_used items mode blist B) B,
          ∃ v ∈ plm_cand (sel_items items mode blist B)
            (sel_used items mode blist B) B,
            model_of u ≠ model_of v) →
        model_of l ≠ model_of m) := by
  intro items mode blist B
  refine ⟨List.length_take_le _ _, ?_, ?_, ?_⟩
  · intro l hl hmem
    have hp : pick_low_and_mid (sel_items items mode blist B)
        (sel_used items mode blist B) B =
        (some l, (pick_low_and_mid (sel_items items mode blist B)
          (sel_used items mode blist B) B).2) := by
      rw [← hl]
      rfl
    have h1 := (mem_plm_cand ((pick_low_mem hp).1)).1
    exact h1.2 (List.mem_filter.mpr ⟨hmem, by simpa using h1.1⟩)
  · intro m hm hmem
    have h1 := (mem_plm_cand (pick_mid_mem hm)).1
    exact h1.2 (List.mem_filter.mpr ⟨hmem, by simpa using h1.1⟩)
  · intro l m hl hm hw
    have hp : pick_low_and_mid (sel_items items mode blist B)
        (sel_used items mode blist B) B = (some l, some m) := by
      rw [← hl, ← hm]
      rfl
    obtain ⟨u, hu, v, hv, huv⟩ := hw
    have hex : ∃ w ∈ plm_cand (sel_items items mode blist B)
        (sel_used items mode blist B) B, model_of w ≠ model_of l := by
      by_cases hul : model_of u = model_of l
      · refine ⟨v, hv, fun hc => huv ?_⟩
        rw [hul, hc]
      · exact ⟨u, hu, hul⟩
    exact Ne.symm ((pick_mid_spec hp).2.2 hex)

set_option maxRecDepth 10000 in
/-- Witness for C3: the amended theorem at a concrete pool with five
distinct models: Top-3 holds 3, the low alternate `E` and mid alternate `C`
avoid the Top-3 models and each other. -/
theorem C3_amended_witness :
    (run_3p2_select [dtv_a1, dtv_b, dtv_y, dtv_c, dtv_e] "any" [] 6000).top3.length ≤ 3 ∧
    model_of dtv_e ∉ (run_3p2_select [dtv_a1, dtv_b, dtv_y, dtv_c, dtv_e] "any" []
      6000).top3.map model_of ∧
    model_of dtv_c ∉ (run_3p2_select [dtv_a1, dtv_b, dtv_y, dtv_c, dtv_e] "any" []
      6000).top3.map model_of ∧
    model_of dtv_e ≠ model_of dtv_c :=
  ⟨(C3_amended [dtv_a1, dtv_b, dtv_y, dtv_c, dtv_e] "any" [] 6000).1,
   (C3_amended [dtv_a1, dtv_b, dtv_y, dtv_c, dtv_e] "any" [] 6000).2.1 dtv_e
     (by decide),
   (C3_amended [dtv_a1, dtv_b, dtv_y, dtv_c, dtv_e] "any" [] 6000).2.2.1 dtv_c
     (by decide),
   (C3_amended [dtv_a1, dtv_b, dtv_y, dtv_c, dtv_e] "any" [] 6000).2.2.2 dtv_e
     dtv_c (by decide) (by decide)
     ⟨dtv_c, by decide, dtv_e, by decide, by decide⟩⟩

/-! ## Claim C4 — price bounds on the selected candidates -/

/-- Claim C4, counterexample: at an explicit input, a candidate with a
present price of `0` (non-positive) passes `apply_filters` with budget
5000 (the run_reco filter only checks absence and the upper bound) and
appears in the Top-3 primary list — contradicting the claimed strict
positivity. -/
theorem C4_cex :
    (get_top3 prof_c4 [rtv_c4_zero] none (some 5000) 2026 2026 1).map
        (fun s => (s.tv.model, rtvGet s.tv "street_rmb")) = [("Z", some 0)] ∧
    ¬ ((0 : ℚ) > 0) :=
  ⟨of_decide_eq_true (by with_unfolding_all rfl), by norm_num⟩

/-- Claim C4, amended: in the conversational 3+2 selection, every Top-3
entry and both alternates have a present price `p` with `0 < p ≤ budget`;
in the run_reco scoring path with a budget, every Top-3 entry has a present
price `≤ budget` (absent prices are excluded before scoring), but a present
non-positive price is **not** excluded there. -/
theorem C4_amended :
    (∀ (items : List DTV) (mode : String) (blist : List String) (B : ℤ)
        (t : DTV),
      (t ∈ (run_3p2_select items mode blist B).top3 ∨
        (run_3p2_select items mode blist B).low = some t ∨
        (run_3p2_select items mode blist B).mid = some t) →
      ∃ p, dget_price t = some p ∧ 0 < p ∧ p ≤ B) ∧
    (∀ (prof : Profile) (pool : List RTV) (brand : Option String) (B : ℚ)
        (yp : ℕ) (nowY nowM : ℤ) (s : ScoredTV),
      "street_rmb" ∉ prof.boolean_metrics →
      s ∈ get_top3 prof pool brand (some B) yp nowY nowM →
      ∃ p, rtvGet s.tv "street_rmb" = some p ∧ p ≤ B) := by
  constructor
  · intro items mode blist B t hmem
    rcases hmem with htop | hlow | hmid
    · have h1 : t ∈ sel_items items mode blist B :=
        (List.take_sublist 3 _).subset htop
      have h2 : t ∈ apply_budget_and_price_filter
          (apply_brand_exclude items mode blist) B := mem_keySort.mp h1
      exact mem_budget_price_filter h2
    · have hp : pick_low_and_mid (sel_items items mode blist B)
          (sel_used items mode blist B) B =
          (some t, (pick_low_and_mid (sel_items items mode blist B)
            (sel_used items mode blist B) B).2) := by
        rw [← hlow]
        rfl
      exact (mem_plm_cand (pick_low_mem hp).1).2
    · exact (mem_plm_cand (pick_mid_mem hmid)).2
  · intro prof pool brand B yp nowY nowM s hbm hmem
    obtain ⟨tv0, htv0, hs⟩ := mem_get_top3 hmem
    obtain ⟨p, hp, hpb⟩ := mem_apply_filters_budget htv0
    refine ⟨p, ?_, hpb⟩
    rw [hs, rtvGet_bool_normalize hbm]
    exact hp

set_option maxRecDepth 10000 in
/-- Witness for C4: the amended theorem at concrete pools — a 3+2 member
has a positive in-budget price, and a run_reco Top-3 member has a present
in-budget price. -/
theorem C4_amended_witness :
    (∃ p, dget_price dtv_a1 = some p ∧ 0 < p ∧ p ≤ 6000) ∧
    (∃ p, rtvGet scored_c4_ok.tv "street_rmb" = some p ∧ p ≤ 5000) :=
  ⟨C4_amended.1 [dtv_a1, dtv_a2, dtv_b, dtv_y] "any" [] 6000 dtv_a1
     (Or.inl (by decide)),
   C4_amended.2 prof_c4 [rtv_c4_ok] none 5000 2026 2026 1 scored_c4_ok
     (by decide) (of_decide_eq_true (by with_unfolding_all rfl))⟩

/-! ## Claim C5 — the mid-price alternate -/

/-- Claim C5, counterexample: with budget 1005, the target is the truncated
`int(1005 * 0.70) = 703`, not `703.5`.  At an explicit pool the code picks
`X` (price 703); under the claim's exact metric, `X` and `Y2` (price 704)
tie at distance `0.5` and the documented tie-break (newer launch, then
higher price) prefers `Y2` — `spec_mid_key` orders `Y2` strictly before `X`
although `Y2` is eligible, with a model distinct from the low alternate
`Z`.  So the code's choice does not minimize `|price − 0.70×budget|` under
the claimed tie-break. -/
theorem C5_cex :
    pick_low_and_mid [dtv_z, dtv_x, dtv_y2] [] 1005 = (some dtv_z, some dtv_x) ∧
    dtv_y2 ∈ plm_cand [dtv_z, dtv_x, dtv_y2] [] 1005 ∧
    model_of dtv_y2 ≠ model_of dtv_z ∧
    spec_mid_key 1005 dtv_y2 < spec_mid_key 1005 dtv_x :=
  ⟨by decide, by decide, by decide, of_decide_eq_true (by with_unfolding_all rfl)⟩

/-- Claim C5, amended: the mid-price alternate minimizes the absolute
distance to the **truncated** target `int(0.70 × budget)` (ties broken by
newer launch period, then higher price — the full lexicographic `mid_key`),
over every eligible candidate whose model differs from the low alternate's
model; the collision fallback picks the next-closest distinct-model
candidate. -/
theorem C5_amended :
    ∀ (pool : List DTV) (used : List String) (B : ℤ) (l m : DTV),
      pick_low_and_mid pool used B = (some l, some m) →
      ∀ t ∈ plm_cand pool used B, model_of t ≠ model_of l →
        mid_key (mid_target B) m ≤ mid_key (mid_target B) t := by
  intro pool used B l m h t ht htm
  exact (pick_mid_spec h).2.1 t ht htm

/-- Witness for C5: the amended theorem at the concrete counterexample
pool — the chosen mid `X` is at most as far from the truncated target as the
eligible distinct-model candidate `Y2`. -/
theorem C5_amended_witness :
    mid_key (mid_target 1005) dtv_x ≤ mid_key (mid_target 1005) dtv_y2 :=
  C5_amended [dtv_z, dtv_x, dtv_y2] [] 1005 dtv_z dtv_x (by decide) dtv_y2
    (by decide) (by decide)

/-! ## Claim C6 — state reset after a completed round -/

/-- Claim C6, counterexample: in the `Dialogue3p2` engine, completing the
fourth slot produces a recommendation (`done = true`) but the returned state
is **not** reset; the next non-command input (`"hello"`) immediately
produces another recommendation from the old slots instead of starting a
fresh round at the size question. -/
theorem C6_cex :
    d3p2_chat (fun _ => "REC") "只要 tcl" d3p2_st3 =
      ⟨"REC", d3p2_st_full, true⟩ ∧
    d3p2_st_full ≠ d3p2_reset_state ∧
    d3p2_chat (fun _ => "REC") "hello" d3p2_st_full =
      ⟨"REC", d3p2_st_full, true⟩ :=
  ⟨by decide, by decide, by decide⟩

/-- Claim C6, amended: in the **web** session handler, once a round
completes (all four slots filled by the merged input, no command), the
reply is marked done and the stored SessionState is immediately reset to
the all-empty state, and a following input that parses no size is asked the
size question; in the `Dialogue3p2` engine, however, the state is **not**
reset after a completed round — any further non-command input on a
fully-filled state reproduces a recommendation from the old slots. -/
theorem C6_amended :
    (∀ (eng : WebEngine) (pack : Pack) (inp : WebIn),
      inp.is_more = false → inp.slots.is_reset = false →
      next_missing_slot_4q (merge_state
        (match inp.state_override with
         | some s => s
         | none => pack.state) inp.slots) = none →
      (api_dialog_3p2_step eng pack inp).1.done = true ∧
      (api_dialog_3p2_step eng pack inp).2.state = empty_web_state) ∧
    (∀ (eng : WebEngine) (pack : Pack) (inp : WebIn),
      pack.state = empty_web_state → inp.is_more = false →
      inp.slots.is_reset = false → inp.state_override = none →
      inp.slots.size = none →
      (api_dialog_3p2_step eng pack inp).1.reply = question_text_4q "size" ∧
      (api_dialog_3p2_step eng pack inp).1.done = false) ∧
    (∀ (run_reply : DialogState → String) (st : DialogState) (text : String),
      st.size ≠ none → st.budget_max ≠ none → st.scene ≠ none →
      st.brand_asked = true →
      String.mk (trimChars (chars text)) ≠ "" →
      String.mk (lowerChars (chars (String.mk (trimChars (chars text))))) ≠ "reset" →
      String.mk (lowerChars (chars (String.mk (trimChars (chars text))))) ≠ "exit" →
      d3p2_chat run_reply text st = ⟨run_reply st, st, true⟩) := by
  refine ⟨?_, ?_, ?_⟩
  · intro eng pack inp h1 h2 h3
    rcases hov : inp.state_override with _ | s
    · rw [hov] at h3
      constructor <;> simp [api_dialog_3p2_step, h1, h2, h3, hov]
    · rw [hov] at h3
      constructor <;> simp [api_dialog_3p2_step, h1, h2, h3, hov]
  · intro eng pack inp hstate h1 h2 hov hsize
    have hms : (merge_state empty_web_state inp.slots).size = none := by
      by_cases hba : inp.slots.brand_any <;>
        simp [merge_state, empty_web_state, hsize, hba]
    have hnm : next_missing_slot_4q (merge_state empty_web_state inp.slots) =
        some "size" := by
      simp [next_missing_slot_4q, hms]
    constructor <;> simp [api_dialog_3p2_step, h1, h2, hov, hstate, hnm]
  · intro run_reply st text h1 h2 h3 hba h4 h5 h6
    simp [d3p2_chat, h1, h2, h3, hba, h4, h5, h6]

/-- Witness for C6: the amended theorem at a fresh session with an input
carrying all four slots (done and reset), then with an empty input (size
question), and at a fully-filled dialogue state with a plain input
(recommendation repeated). -/
theorem C6_amended_witness :
    ((api_dialog_3p2_step eng_w (fresh_pack 0) web_in_full).1.done = true ∧
     (api_dialog_3p2_step eng_w (fresh_pack 0) web_in_full).2.state =
       empty_web_state) ∧
    ((api_dialog_3p2_step eng_w (fresh_pack 0) web_in_blank).1.reply =
       question_text_4q "size" ∧
     (api_dialog_3p2_step eng_w (fresh_pack 0) web_in_blank).1.done = false) ∧
    d3p2_chat (fun _ => "REC") "again" d3p2_st_full =
      ⟨"REC", d3p2_st_full, true⟩ :=
  ⟨C6_amended.1 eng_w (fresh_pack 0) web_in_full rfl rfl (by decide),
   C6_amended.2.1 eng_w (fresh_pack 0) web_in_blank rfl rfl rfl rfl rfl,
   C6_amended.2.2 (fun _ => "REC") d3p2_st_full "again" (by decide) (by decide)
     (by decide) (by decide) (by decide) (by decide) (by decide)⟩

/-! ## Claim C7 — expired sessions -/

/-- Claim C7, counterexample: at an explicit store holding one expired entry
(timestamp 0, TTL 86400, now 200000), `_get_session` returns the stale
entry — slot values and the cached result survive the expiry, because the
garbage collector does nothing while the store holds fewer than 2000
entries.  An expired session is therefore **not** treated like a brand-new
session. -/
theorem C7_cex :
    (get_session 200000 [(1, stale_pack_c7)] 1).1 =
      { stale_pack_c7 with ts := 200000 } ∧
    sess_ttl_sec < 200000 - stale_pack_c7.ts ∧
    (get_session 200000 [(1, stale_pack_c7)] 1).1.state ≠ empty_web_state ∧
    (get_session 200000 [(1, stale_pack_c7)] 1).1.last_reply_full = some "old" :=
  ⟨by decide, by decide, by decide, by decide⟩

/-- Claim C7, amended: a **missing** session entry always yields a fresh,
empty session entry and is never an error; an entry older than the TTL is
evicted — and thus treated like a brand-new session — only when the store
holds at least 2000 entries at access time (otherwise the stale entry is
returned unchanged apart from its refreshed timestamp). -/
theorem C7_amended :
    (∀ (now : ℤ) (sess : List (ℕ × Pack)) (sid : ℕ),
      sess.lookup sid = none →
      (get_session now sess sid).1 = fresh_pack now) ∧
    (∀ (now : ℤ) (sess : List (ℕ × Pack)) (sid : ℕ),
      2000 ≤ sess.length →
      (∀ p : Pack, (sid, p) ∈ sess → sess_ttl_sec < now - p.ts) →
      (get_session now sess sid).1 = fresh_pack now) := by
  constructor
  · intro now sess sid hnone
    have hgc : (gc_sessions now sess).lookup sid = none := by
      unfold gc_sessions
      by_cases hlen : sess.length < 2000
      · rw [if_pos hlen]
        exact hnone
      · rw [if_neg hlen]
        exact lookup_none_filter hnone
    simp [get_session, hgc]
  · intro now sess sid hlen hexp
    have hgc : (gc_sessions now sess).lookup sid = none := by
      unfold gc_sessions
      rw [if_neg (by omega : ¬ sess.length < 2000)]
      apply lookup_filter_none
      intro p hp
      have h2 := hexp p hp
      simp only [decide_eq_false_iff_not, not_le]
      exact h2
    simp [get_session, hgc]

/-- Witness for C7: the amended theorem at an empty store (missing id) and
at a concrete 2000-entry store in which every entry is expired. -/
theorem C7_amended_witness :
    (get_session 5 [] 7).1 = fresh_pack 5 ∧
    (get_session 1000000 big_stale_sess 0).1 = fresh_pack 1000000 :=
  ⟨C7_amended.1 5 [] 7 (by decide),
   C7_amended.2 1000000 big_stale_sess 0
     (by simp [big_stale_sess])
     (by
       intro p hp
       simp only [big_stale_sess, List.mem_map, List.mem_range] at hp
       obtain ⟨i, _, he⟩ := hp
       have h2 : stale_pack_c7 = p := congrArg Prod.snd he
       rw [← h2]
       decide)⟩

/-! ## Claim C9 — slot parsers are total with typed results -/

theorem ratOfNum_nonneg (ds fs : List Char) : 0 ≤ ratOfNum ds fs := by
  unfold ratOfNum
  positivity

theorem numBeforeSuffix_nonneg {suffix : Char} :
    ∀ {l : List Char} {q : ℚ}, numBeforeSuffix suffix l = some q → 0 ≤ q := by
  intro l
  induction l with
  | nil => intro q h; cases h
  | cons c rest ih =>
    intro q h
    simp only [numBeforeSuffix] at h
    split at h
    · split at h
      · split at h
        · split at h
          · injection h with h
            subst h
            exact ratOfNum_nonneg _ _
          · exact ih h
        · exact ih h
      · split at h
        · injection h with h
          subst h
          exact ratOfNum_nonneg _ _
        · exact ih h
    · exact ih h

theorem pyTrunc_nonneg {q : ℚ} (h : 0 ≤ q) : 0 ≤ pyTrunc q :=
  Int.tdiv_nonneg (Rat.num_nonneg.mpr h) (Int.ofNat_nonneg _)

/-- Claim C9, confirmed: each slot parser is a total function (the Lean
embedding is total by construction, matching the source's catch-all
`try/except` and sentinel returns) and, for every input string, returns
either the `none` sentinel or a valid typed value: a size in `[20, 120]`, a
nonnegative budget integer, one of the four scene names, or a brand stance
whose mode is `any`/`only`/`exclude`. -/
theorem C9_parsers_total :
    ∀ x : String,
      (safe_size x = none ∨ ∃ v, safe_size x = some v ∧ 20 ≤ v ∧ v ≤ 120) ∧
      (safe_int_from_text x = none ∨
        ∃ n, safe_int_from_text x = some n ∧ 0 ≤ n) ∧
      (norm_scene x = none ∨ norm_scene x = some "movie" ∨
        norm_scene x = some "ps5" ∨ norm_scene x = some "bright" ∨
        norm_scene x = some "sport") ∧
      (parse_brand_attitude x = (none, []) ∨
        (parse_brand_attitude x).1 = some "any" ∨
        (parse_brand_attitude x).1 = some "only" ∨
        (parse_brand_attitude x).1 = some "exclude") := by
  intro x
  refine ⟨?_, ?_, ?_, ?_⟩
  · simp only [safe_size]
    split_ifs with h1 h2
    · exact Or.inl rfl
    · exact Or.inr ⟨_, rfl, h2.1, h2.2⟩
    · exact Or.inl rfl
  · simp only [safe_int_from_text]
    by_cases h1 : lowerTrim x = []
    · rw [if_pos h1]
      exact Or.inl rfl
    · rw [if_neg h1]
      rcases hm1 : numBeforeSuffix '万' (lowerTrim x) with _ | q1 <;>
        simp only [hm1]
      · rcases hm2 : numBeforeSuffix 'k' (lowerTrim x) with _ | q2 <;>
          simp only [hm2]
        · rcases hm3 : numBeforeSuffix 'w' (lowerTrim x) with _ | q3 <;>
            simp only [hm3]
          · by_cases h4 : (lowerTrim x).filter Char.isDigit = []
            · rw [if_pos h4]
              exact Or.inl rfl
            · rw [if_neg h4]
              exact Or.inr ⟨_, rfl, Int.ofNat_nonneg _⟩
          · exact Or.inr ⟨_, rfl, pyTrunc_nonneg
              (mul_nonneg (numBeforeSuffix_nonneg hm3) (by norm_num))⟩
        · exact Or.inr ⟨_, rfl, pyTrunc_nonneg
            (mul_nonneg (numBeforeSuffix_nonneg hm2) (by norm_num))⟩
      · exact Or.inr ⟨_, rfl, pyTrunc_nonneg
          (mul_nonneg (numBeforeSuffix_nonneg hm1) (by norm_num))⟩
  · simp only [norm_scene]
    split_ifs with h
    · rcases h with h | h | h | h <;> rw [h]
      · exact Or.inr (Or.inl rfl)
      · exact Or.inr (Or.inr (Or.inl rfl))
      · exact Or.inr (Or.inr (Or.inr (Or.inl rfl)))
      · exact Or.inr (Or.inr (Or.inr (Or.inr rfl)))
    · exact Or.inl rfl
  · simp only [parse_brand_attitude]
    by_cases h1 : collapseWs (lowerTrim x) = []
    · rw [if_pos h1]
      exact Or.inl rfl
    · rw [if_neg h1]
      by_cases h2 : collapseWs (lowerTrim x) = chars "无所谓" ∨
          collapseWs (lowerTrim x) = chars "随便" ∨
          collapseWs (lowerTrim x) = chars "都行" ∨
          collapseWs (lowerTrim x) = chars "不限" ∨
          collapseWs (lowerTrim x) = chars "any"
      · rw [if_pos h2]
        exact Or.inr (Or.inl rfl)
      · rw [if_neg h2]
        rcases hv1 : matchVerbRest [chars "只要", chars "只选", chars "必须",
            chars "就要"] (collapseWs (lowerTrim x)) with _ | rest1 <;>
          simp only [hv1]
        · rcases hv2 : matchVerbRest [chars "排除", chars "不要", chars "不考虑",
              chars "别给"] (collapseWs (lowerTrim x)) with _ | rest2 <;>
            simp only [hv2]
          · by_cases h3 : (collapseWs (lowerTrim x)).all brandChar
            · rw [if_pos h3]
              exact Or.inr (Or.inr (Or.inl rfl))
            · rw [if_neg h3]
              exact Or.inl rfl
          · exact Or.inr (Or.inr (Or.inr trivial))
        · exact Or.inr (Or.inr (Or.inl trivial))

end TVGrab
